import Mathlib

/-!
Verification of the fsfw service-interface logging facility.

The repository source provides the `ServiceInterfaceStream` class
(src/src/fsfw/serviceinterface/ServiceInterface.h): a stream wrapper whose
constructor stores a `const char*` subsystem name.  The surrounding logging
core (severity filter, message accumulation, sinks, registry) is specified
in spec.md; the parts not present under src/ are modelled from the spec and
marked as such in their doc comments.
-/

namespace FSFW

/-- A `const char*` modelled as an address; `0` is the null pointer. -/
abbrev CharPtr := Nat

/-- The null pointer value. -/
def nullPtr : CharPtr := 0

/-- Embedding of the class in ServiceInterface.h: it has a single field
`name` of pointer type, set by the constructor's initializer list. -/
structure ServiceInterfaceStream where
  name : CharPtr
deriving DecidableEq

/-- The constructor `ServiceInterfaceStream(const char* name) : name(name) {}`:
its initializer list stores the pointer argument into `name`; the body is
empty, so nothing else happens. -/
def ServiceInterfaceStream.construct (p : CharPtr) : ServiceInterfaceStream :=
  { name := p }

/-- The constructor paired with an ambient world of type `σ` (holding, e.g.,
the active Sink's state).  The constructor body is empty and its initializer
list only sets `name`, so the world is passed through untouched. -/
def ServiceInterfaceStream.constructWith (σ : Type) (p : CharPtr) (w : σ) :
    ServiceInterfaceStream × σ :=
  (ServiceInterfaceStream.construct p, w)

/-- Modelled from the spec: the ordered severity enumeration
{Debug, Info, Warning, Error}; the enumeration itself is absent from src/. -/
inductive Severity where
  | debug
  | info
  | warning
  | error
deriving DecidableEq, Repr

/-- Rank of a severity in the strict total order Debug < Info < Warning < Error. -/
def Severity.toNat : Severity → Nat
  | .debug => 0
  | .info => 1
  | .warning => 2
  | .error => 3

/-- Modelled from the spec: the Severity Filter table (absent from src/),
a mapping from subsystem name to minimum severity together with the
process-wide default threshold. -/
structure SeverityFilter where
  table : List (String × Severity)
  defaultThreshold : Severity
deriving DecidableEq

/-- Modelled from the spec: `threshold(subsystemName) -> severity`, falling
back to the process-wide default when the subsystem has no entry. -/
def SeverityFilter.threshold (f : SeverityFilter) (s : String) : Severity :=
  match f.table.lookup s with
  | some v => v
  | none => f.defaultThreshold

/-- Modelled from the spec: `setThreshold(subsystemName, severity)`. -/
def SeverityFilter.setThreshold (f : SeverityFilter) (s : String) (v : Severity) :
    SeverityFilter :=
  { f with table := (s, v) :: f.table }

/-- A finished message handed to a Sink: subsystem name, severity tag and
the accumulated content. -/
abbrev LogMessage := String × Severity × List Char

/-- Modelled from the spec: the Message Stream component that the stub class
in src/ is the façade for — subsystem name bound at construction, severity
tag, and the bounded accumulation buffer. -/
structure MessageStream where
  subsystemName : String
  severity : Severity
  buffer : List Char
deriving DecidableEq

/-- Modelled from the spec: `create(subsystemName)` constructs a stream bound
to the name, with an empty accumulation buffer; it does not touch the Sink. -/
def MessageStream.create (n : String) (v : Severity) : MessageStream :=
  { subsystemName := n, severity := v, buffer := [] }

/-- Modelled from the spec: `append(content)` accumulates text into the
bounded buffer of capacity `C`; content beyond capacity is silently
dropped (truncation, no error). -/
def MessageStream.append (C : Nat) (st : MessageStream) (content : List Char) :
    MessageStream :=
  { st with buffer := (st.buffer ++ content).take C }

/-- Modelled from the spec: the filtering decision of `endOfMessage()` —
the finished message (buffer plus subsystem name and severity tag) when
`severity >= filter(subsystemName)`, and nothing otherwise. -/
def MessageStream.flushResult (st : MessageStream) (f : SeverityFilter) :
    Option LogMessage :=
  if (f.threshold st.subsystemName).toNat ≤ st.severity.toNat then
    some (st.subsystemName, st.severity, st.buffer)
  else
    none

/-- Modelled from the spec: a Sink capability — "accept a completed message"
as a transition on the sink's state `σ`. -/
structure Sink (σ : Type) where
  accept : σ → LogMessage → σ

/-- Modelled from the spec: `endOfMessage()` — if the severity passes the
filter, the finished message is handed to the active Sink; the buffer is
cleared either way.  The third component records exactly what was handed
to the Sink (`none` when the message was filtered out). -/
def MessageStream.endOfMessage (σ : Type) (snk : Sink σ) (f : SeverityFilter)
    (st : MessageStream) (s0 : σ) : MessageStream × σ × Option LogMessage :=
  match st.flushResult f with
  | some m => ({ st with buffer := [] }, snk.accept s0 m, some m)
  | none => ({ st with buffer := [] }, s0, none)

/-- Modelled from the spec: the Null Sink — `accept(...)` is a no-op that
discards the message and changes no observable state. -/
def nullSink (σ : Type) : Sink σ :=
  { accept := fun s _ => s }

/-- Modelled from the spec: the Ring-buffer Sink — a fixed-capacity circular
buffer of recent lines. -/
structure RingSink where
  cap : Nat
  entries : List LogMessage
deriving DecidableEq

/-- Modelled from the spec: an empty ring buffer of capacity `cap`. -/
def RingSink.empty (cap : Nat) : RingSink :=
  { cap := cap, entries := [] }

/-- Modelled from the spec: `accept(message)` copies the message into the
circular buffer; on overflow the oldest entries are overwritten, so the
buffer always holds the most recent `cap` accepted messages. -/
def RingSink.accept (s : RingSink) (m : LogMessage) : RingSink :=
  { s with entries := (s.entries ++ [m]).rtake s.cap }

/-- Modelled from the spec: the drain/export operation for an external
collaborator to retrieve the retained lines, oldest first. -/
def RingSink.drain (s : RingSink) : List LogMessage :=
  s.entries

/-- Modelled from the spec: a Sink whose accept may fail (e.g., the
Forwarding Sink when the transport is busy or unavailable); `none` means
the message could not be delivered. -/
structure FallibleSink (σ : Type) where
  accept : σ → LogMessage → Option σ

/-- Modelled from the spec: the facility's use of a fallible sink — a
failing accept degrades to a no-op for that message, never an error. -/
def FallibleSink.safeAccept (snk : FallibleSink σ) (s : σ) (m : LogMessage) : σ :=
  (snk.accept s m).getD s

/-- Modelled from the spec: one whole logging statement — appends the pieces
of content into the bounded buffer, then performs `endOfMessage` against a
possibly failing sink.  Always returns normally: a full buffer truncates,
a failing sink drops the message. -/
def MessageStream.logStatement (C : Nat) (σ : Type) (snk : FallibleSink σ)
    (f : SeverityFilter) (st : MessageStream) (s0 : σ)
    (contents : List (List Char)) : MessageStream × σ :=
  let st1 := contents.foldl (MessageStream.append C) st
  match st1.flushResult f with
  | some m => ({ st1 with buffer := [] }, snk.safeAccept s0 m)
  | none => ({ st1 with buffer := [] }, s0)

/-- Modelled from the spec: the operations a call site can perform on a
Message Stream after construction. -/
inductive StreamOp where
  | append (content : List Char)
  | endOfMessage

/-- Modelled from the spec: applying one operation to a Message Stream
(buffer capacity `C`, severity filter `f`); only the accumulation buffer
is affected. -/
def StreamOp.apply (C : Nat) (f : SeverityFilter) (st : MessageStream) :
    StreamOp → MessageStream
  | .append content => st.append C content
  | .endOfMessage => { st with buffer := [] }

end FSFW

namespace FSFW

/-- Taking `n` of an already-`n`-truncated prefix absorbs: truncation is
stable under further appends on the right. -/
theorem take_append_absorb {α : Type} (n : Nat) (l m : List α) :
    (l.take n ++ m).take n = (l ++ m).take n := by
  rw [List.take_append_eq_append_take, List.take_append_eq_append_take,
    List.take_take, Nat.min_self, List.length_take]
  have h : n - min n l.length = n - l.length := by
    rcases Nat.le_total l.length n with hle | hle
    · rw [Nat.min_eq_right hle]
    · rw [Nat.min_eq_left hle, Nat.sub_self, Nat.sub_eq_zero_of_le hle]
  rw [h]

/-- Symmetric absorption: truncating the right summand first does not change
an `n`-truncation of an append. -/
theorem take_append_take_absorb {α : Type} (n : Nat) (a b : List α) :
    (a ++ b.take n).take n = (a ++ b).take n := by
  rw [List.take_append_eq_append_take, List.take_append_eq_append_take,
    List.take_take]
  have h : min (n - a.length) n = n - a.length :=
    Nat.min_eq_left (Nat.sub_le n a.length)
  rw [h]

/-- Keeping the last `n` elements absorbs under appending on the right. -/
theorem rtake_append_absorb {α : Type} (n : Nat) (l m : List α) :
    (List.rtake l n ++ m).rtake n = (l ++ m).rtake n := by
  simp only [List.rtake_eq_reverse_take_reverse, List.reverse_append,
    List.reverse_reverse]
  rw [take_append_take_absorb]

/-- The length of the last-`n` segment of a list. -/
theorem length_rtake {α : Type} (n : Nat) (l : List α) :
    (List.rtake l n).length = min n l.length := by
  simp only [List.rtake, List.length_drop]
  omega

/-- Folding ring-buffer accepts keeps the last `cap` of old-entries-then-new
messages, and never changes the capacity. -/
theorem foldl_accept_entries (ms : List LogMessage) (s : RingSink)
    (h : s.entries.length ≤ s.cap) :
    (ms.foldl RingSink.accept s).entries = (s.entries ++ ms).rtake s.cap ∧
      (ms.foldl RingSink.accept s).cap = s.cap := by
  induction ms generalizing s with
  | nil =>
      refine ⟨?_, rfl⟩
      simp only [List.foldl_nil, List.append_nil, List.rtake]
      rw [Nat.sub_eq_zero_of_le h, List.drop_zero]
  | cons m ms ih =>
      have hlen : (RingSink.accept s m).entries.length ≤ (RingSink.accept s m).cap := by
        simp only [RingSink.accept]
        rw [length_rtake]
        exact Nat.min_le_left _ _
      obtain ⟨h1, h2⟩ := ih (RingSink.accept s m) hlen
      refine ⟨?_, ?_⟩
      · rw [List.foldl_cons, h1]
        show ((s.entries ++ [m]).rtake s.cap ++ ms).rtake s.cap
            = (s.entries ++ m :: ms).rtake s.cap
        rw [rtake_append_absorb, List.append_assoc, List.singleton_append]
      · rw [List.foldl_cons, h2]
        rfl

/-- Folding bounded appends yields the `C`-truncation of the accumulated
content, provided the starting buffer already fits. -/
theorem foldl_append_buffer (C : Nat) (contents : List (List Char))
    (st : MessageStream) (h : st.buffer.length ≤ C) :
    (contents.foldl (MessageStream.append C) st).buffer
      = (st.buffer ++ contents.flatten).take C := by
  induction contents generalizing st with
  | nil =>
      simp only [List.foldl_nil, List.flatten_nil, List.append_nil]
      exact (List.take_of_length_le h).symm
  | cons c cs ih =>
      have hlen : (st.append C c).buffer.length ≤ C := by
        simp only [MessageStream.append]
        rw [List.length_take]
        exact Nat.min_le_left _ _
      rw [List.foldl_cons, ih (st.append C c) hlen]
      show ((st.buffer ++ c).take C ++ cs.flatten).take C
          = (st.buffer ++ (c :: cs).flatten).take C
      rw [take_append_absorb, List.append_assoc, List.flatten_cons]

/-- C9: the constructed object's `name` field is the pointer argument itself. -/
theorem construct_stores_pointer (p : CharPtr) :
    (ServiceInterfaceStream.construct p).name = p :=
  rfl

/-- C10: the constructor is total and unvalidated — for every argument,
including the null pointer, construction succeeds and simply stores the
argument, with no check or failure branch. -/
theorem construct_total_no_validation :
    (∀ p : CharPtr, ServiceInterfaceStream.construct p = { name := p }) ∧
      ServiceInterfaceStream.construct nullPtr = { name := nullPtr } :=
  ⟨fun _ => rfl, rfl⟩

/-- C2: constructing a stream with name `p` yields a stream whose bound name
equals `p`, and the construction leaves the ambient Sink state unchanged. -/
theorem construct_binds_name_sink_untouched (σ : Type) (p : CharPtr) (w : σ) :
    (ServiceInterfaceStream.constructWith σ p w).1.name = p ∧
      (ServiceInterfaceStream.constructWith σ p w).2 = w :=
  ⟨rfl, rfl⟩

/-- C1: `endOfMessage` hands the message (name, severity, buffer) to the
active Sink exactly when the severity is at least the configured threshold
for the subsystem (the default threshold when the subsystem has no entry);
the sink state is updated by accepting exactly the handed message, and the
buffer is cleared either way. -/
theorem endOfMessage_filters (σ : Type) (snk : Sink σ) (f : SeverityFilter)
    (st : MessageStream) (s0 : σ) :
    ((MessageStream.endOfMessage σ snk f st s0).2.2
        = some (st.subsystemName, st.severity, st.buffer)
      ↔ (f.threshold st.subsystemName).toNat ≤ st.severity.toNat) ∧
    (MessageStream.endOfMessage σ snk f st s0).2.1
      = ((MessageStream.endOfMessage σ snk f st s0).2.2).elim s0 (snk.accept s0) ∧
    (MessageStream.endOfMessage σ snk f st s0).1.buffer = [] := by
  by_cases h : (f.threshold st.subsystemName).toNat ≤ st.severity.toNat
  · simp [MessageStream.endOfMessage, MessageStream.flushResult, h]
  · simp [MessageStream.endOfMessage, MessageStream.flushResult, h]

/-- C3: no operation of the Message Stream mutates the subsystem name bound
at construction: any sequence of append/endOfMessage operations leaves the
name field equal to its initial value. -/
theorem subsystem_name_immutable (C : Nat) (f : SeverityFilter)
    (st : MessageStream) (ops : List StreamOp) :
    (ops.foldl (StreamOp.apply C f) st).subsystemName = st.subsystemName := by
  induction ops generalizing st with
  | nil => rfl
  | cons op ops ih =>
      rw [List.foldl_cons, ih]
      cases op with
      | append c => rfl
      | endOfMessage => rfl

/-- C4: when the appended content exceeds the buffer capacity `C`, the buffer
present at flush is exactly the first `C` bytes of the appended content;
append is total (never fails the caller) and the buffer never grows past
`C`. -/
theorem append_beyond_capacity_truncates (C : Nat) (n : String) (v : Severity)
    (contents : List (List Char)) (h : C < contents.flatten.length) :
    (contents.foldl (MessageStream.append C) (MessageStream.create n v)).buffer
        = contents.flatten.take C ∧
    (contents.foldl (MessageStream.append C) (MessageStream.create n v)).buffer.length
        = C := by
  have hb := foldl_append_buffer C contents (MessageStream.create n v)
    (by simp [MessageStream.create])
  rw [show (MessageStream.create n v).buffer = [] from rfl, List.nil_append] at hb
  refine ⟨hb, ?_⟩
  rw [hb, List.length_take]
  omega

/-- C4 witness: capacity 2, appended content "ab" then "c" (3 bytes): the
buffer at flush is exactly "ab". -/
theorem append_beyond_capacity_truncates_witness :
    2 < (([['a', 'b'], ['c']] : List (List Char)).flatten).length ∧
    (([['a', 'b'], ['c']] : List (List Char)).foldl (MessageStream.append 2)
        (MessageStream.create "power" Severity.info)).buffer = ['a', 'b'] :=
  ⟨by decide,
    (append_beyond_capacity_truncates 2 "power" Severity.info
      [['a', 'b'], ['c']] (by decide)).1⟩

/-- C5: a ring-buffer sink of capacity `cap`, after accepting `cap + k`
messages, drains exactly the last `cap` of them (the first `k`, the oldest,
were evicted), and its storage never exceeds the fixed capacity. -/
theorem ring_sink_last_n (cap k : Nat) (ms : List LogMessage)
    (h : ms.length = cap + k) :
    (ms.foldl RingSink.accept (RingSink.empty cap)).drain = ms.drop k ∧
    (ms.foldl RingSink.accept (RingSink.empty cap)).entries.length = cap ∧
    (ms.foldl RingSink.accept (RingSink.empty cap)).cap = cap := by
  obtain ⟨h1, h2⟩ := foldl_accept_entries ms (RingSink.empty cap)
    (by simp [RingSink.empty])
  refine ⟨?_, ?_, h2⟩
  · simp only [RingSink.drain]
    rw [h1]
    simp only [RingSink.empty, List.nil_append, List.rtake]
    have hk : ms.length - cap = k := by omega
    rw [hk]
  · rw [h1]
    simp only [RingSink.empty, List.nil_append]
    rw [length_rtake]
    omega

/-- C5 witness: capacity 2, three accepted messages: the drain is exactly
the last two. -/
theorem ring_sink_last_n_witness :
    ([("a", Severity.info, []), ("b", Severity.info, []),
        ("c", Severity.info, [])] : List LogMessage).length = 2 + 1 ∧
    (([("a", Severity.info, []), ("b", Severity.info, []),
        ("c", Severity.info, [])] : List LogMessage).foldl RingSink.accept
        (RingSink.empty 2)).drain
      = [("b", Severity.info, []), ("c", Severity.info, [])] :=
  ⟨rfl,
    (ring_sink_last_n 2 1
      [("a", Severity.info, []), ("b", Severity.info, []),
        ("c", Severity.info, [])] rfl).1⟩

/-- C6: a whole logging statement never surfaces a failure: with a sink
whose accept always fails, the statement still returns normally, the sink
state is untouched (the message is dropped) and the buffer is cleared. -/
theorem logging_never_fails (C : Nat) (σ : Type) (snk : FallibleSink σ)
    (f : SeverityFilter) (st : MessageStream) (s0 : σ)
    (contents : List (List Char)) (h : ∀ s m, snk.accept s m = none) :
    (MessageStream.logStatement C σ snk f st s0 contents).2 = s0 ∧
    (MessageStream.logStatement C σ snk f st s0 contents).1.buffer = [] := by
  simp only [MessageStream.logStatement]
  cases hf : (contents.foldl (MessageStream.append C) st).flushResult f with
  | some m => simp [FallibleSink.safeAccept, h, hf]
  | none => simp [hf]

/-- C6 witness: a concrete always-failing sink; an Error-severity statement
on "power" (which passes the Debug default threshold) leaves the sink state
`5` unchanged and clears the buffer. -/
theorem logging_never_fails_witness :
    (MessageStream.logStatement 8 Nat ⟨fun _ _ => none⟩
        ⟨[], Severity.debug⟩ (MessageStream.create "power" Severity.error) 5
        [['h', 'i']]).2 = 5 ∧
    (MessageStream.logStatement 8 Nat ⟨fun _ _ => none⟩
        ⟨[], Severity.debug⟩ (MessageStream.create "power" Severity.error) 5
        [['h', 'i']]).1.buffer = [] :=
  logging_never_fails 8 Nat ⟨fun _ _ => none⟩ ⟨[], Severity.debug⟩
    (MessageStream.create "power" Severity.error) 5 [['h', 'i']]
    (fun _ _ => rfl)

/-- C7: a subsystem with no entry in the filter table gets the process-wide
default threshold; an unknown name is not an error. -/
theorem threshold_unknown_defaults (f : SeverityFilter) (s : String)
    (h : f.table.lookup s = none) :
    f.threshold s = f.defaultThreshold := by
  simp [SeverityFilter.threshold, h]

/-- C7 witness: "thermal" is absent from a table configuring only "power",
so its threshold is the default Info. -/
theorem threshold_unknown_defaults_witness :
    (SeverityFilter.mk [("power", Severity.warning)] Severity.info).table.lookup
        "thermal" = none ∧
    (SeverityFilter.mk [("power", Severity.warning)] Severity.info).threshold
        "thermal" = Severity.info :=
  ⟨by decide,
    threshold_unknown_defaults
      (SeverityFilter.mk [("power", Severity.warning)] Severity.info)
      "thermal" (by decide)⟩

/-- C8: the Null Sink's accept is a no-op — it returns its state unchanged,
and an `endOfMessage` against the Null Sink leaves the sink state untouched
regardless of filtering. -/
theorem null_sink_noop (σ : Type) (s0 : σ) (m : LogMessage)
    (f : SeverityFilter) (st : MessageStream) :
    (nullSink σ).accept s0 m = s0 ∧
    (MessageStream.endOfMessage σ (nullSink σ) f st s0).2.1 = s0 := by
  refine ⟨rfl, ?_⟩
  simp only [MessageStream.endOfMessage]
  cases st.flushResult f <;> rfl

end FSFW
